import Mathlib

/-!
Verification of the flood-control and moderation core of the marvin bot.

The Python sources are embedded shallowly:

* `src/antiflood.py` — the `Antiflood` rate limiter.  Python `datetime`
  values are modelled as integer timestamps in seconds (the code only ever
  subtracts two of them and compares the difference against a number of
  seconds).  The class-level dictionary `_flood_data`, which Python shares
  between every instance of the class, is modelled as a single state value
  of type `FloodData` threaded explicitly through the calls; an `Antiflood`
  value carries only the per-instance fields `time_limit` and `count_limit`.
* `src/marvin.py` — `check_blacklist`, `delete_message_if_admin`,
  `delete_message_with_delay`, the blacklist branch of `comment`, and the
  dispatch of `message_handler`.  Python strings are modelled as `List Char`
  (sequences of code points); Python string comparison is code-point
  lexicographic, which is exactly the `LinearOrder (List Char)` order.
  External side effects (Telegram/Reddit API calls, thread spawns) are
  modelled as explicit action-event lists.
-/

/-! ## Antiflood (src/antiflood.py) -/

/-- One entry of `Antiflood._flood_data`: the Python dict
`dict(begin=datetime.now(), counter=1)` (src/antiflood.py line 39). -/
structure FloodRecord where
  begin : Int
  counter : Int
deriving DecidableEq

/-- The class-level dictionary `Antiflood._flood_data` (src/antiflood.py
line 15), keyed by `user_id`.  It is a class attribute, hence one single
mapping shared by every instance in the process; we model it as one state
value passed to and returned by `is_flooding`. -/
def FloodData : Type := Int → Option FloodRecord

/-- The per-instance fields set by `Antiflood.__init__`
(src/antiflood.py lines 41-43).  The constructor stores the two
parameters and performs no validation. -/
structure Antiflood where
  time_limit : Int
  count_limit : Int
deriving DecidableEq

/-- Constructor `Antiflood.__init__(self, time_limit, count_limit)`
(src/antiflood.py lines 41-43): it only assigns the two attributes; there
is no parameter check and no `raise` statement anywhere in the module. -/
def Antiflood.init (time_limit count_limit : Int) : Antiflood :=
  ⟨time_limit, count_limit⟩

/-- Update of the shared `_flood_data` mapping at one key. -/
def updateFlood (st : FloodData) (u : Int) (r : FloodRecord) : FloodData :=
  fun x => if x = u then some r else st x

/-- `Antiflood._init_user` (src/antiflood.py lines 38-39):
`self._flood_data[user_id] = dict(begin=datetime.now(), counter=1)`. -/
def init_user (now : Int) (st : FloodData) (u : Int) : FloodData :=
  updateFlood st u ⟨now, 1⟩

/-- `is_in_timeframe(start, seconds_from_now)` (src/antiflood.py
lines 46-51): `datetime.now() - start < timedelta(seconds=seconds_from_now)`.
The ambient clock `datetime.now()` is the explicit argument `now`. -/
def is_in_timeframe (start seconds_from_now now : Int) : Bool :=
  decide (now - start < seconds_from_now)

/-- `Antiflood.is_flooding(self, user_id)` (src/antiflood.py lines 18-36).
Returns the boolean result together with the new shared `_flood_data`
state.  `now` is the value of `datetime.now()` during the call. -/
def is_flooding (a : Antiflood) (now : Int) (st : FloodData) (u : Int) :
    Bool × FloodData :=
  match st u with
  | none => (false, init_user now st u)
  | some r =>
    if !(is_in_timeframe r.begin a.time_limit now) then
      (false, init_user now st u)
    else
      (decide (r.counter + 1 ≥ a.count_limit), updateFlood st u ⟨r.begin, r.counter + 1⟩)

/-- A sequence of `is_flooding` calls for one user at the given clock
times, returning the list of results (state threaded left to right). -/
def runCalls (a : Antiflood) (u : Int) : List Int → FloodData → List Bool
  | [], _ => []
  | t :: ts, st =>
    (is_flooding a t st u).1 :: runCalls a u ts (is_flooding a t st u).2

/-! ### Helper lemmas for the rate limiter -/

theorem is_flooding_absent (a : Antiflood) (now : Int) (st : FloodData) (u : Int)
    (h : st u = none) : is_flooding a now st u = (false, init_user now st u) := by
  simp [is_flooding, h]

theorem is_flooding_stale (a : Antiflood) (now : Int) (st : FloodData) (u : Int)
    (r : FloodRecord) (h : st u = some r) (hst : a.time_limit ≤ now - r.begin) :
    is_flooding a now st u = (false, init_user now st u) := by
  have hx : ¬ (now - r.begin < a.time_limit) := not_lt.mpr hst
  simp [is_flooding, h, is_in_timeframe, hx]

theorem is_flooding_fresh (a : Antiflood) (now : Int) (st : FloodData) (u : Int)
    (r : FloodRecord) (h : st u = some r) (hfr : now - r.begin < a.time_limit) :
    is_flooding a now st u =
      (decide (r.counter + 1 ≥ a.count_limit), updateFlood st u ⟨r.begin, r.counter + 1⟩) := by
  simp [is_flooding, h, is_in_timeframe, hfr]

theorem updateFlood_same (st : FloodData) (u : Int) (r : FloodRecord) :
    updateFlood st u r u = some r := by
  simp [updateFlood]

theorem runCalls_window (a : Antiflood) (u t0 : Int) :
    ∀ (ts : List Int) (st : FloodData) (c : Int),
      st u = some ⟨t0, c⟩ → (∀ t ∈ ts, t - t0 < a.time_limit) →
      runCalls a u ts st =
        (List.range ts.length).map (fun (j : Nat) => decide (c + (j : Int) + 1 ≥ a.count_limit)) := by
  intro ts
  induction ts with
  | nil => intro st c _ _; simp [runCalls]
  | cons t ts ih =>
      intro st c h hw
      have hfr : t - t0 < a.time_limit := hw t (List.mem_cons_self _ _)
      have hstep := is_flooding_fresh a t st u ⟨t0, c⟩ h hfr
      have hrest := ih (updateFlood st u ⟨t0, c + 1⟩) (c + 1)
        (updateFlood_same st u ⟨t0, c + 1⟩)
        (fun s hs => hw s (List.mem_cons_of_mem _ hs))
      simp only [runCalls, hstep, hrest]
      rw [List.length_cons, List.range_succ_eq_map, List.map_cons, List.map_map]
      congr 1
      · apply decide_eq_decide.mpr
        push_cast
        omega
      · apply List.map_congr_left
        intro j _
        simp only [Function.comp]
        apply decide_eq_decide.mpr
        constructor
        · intro hle
          have : ((Nat.succ j : Nat) : Int) = (j : Int) + 1 := by push_cast; ring
          omega
        · intro hle
          have : ((Nat.succ j : Nat) : Int) = (j : Int) + 1 := by push_cast; ring
          omega

theorem runCalls_from_empty (a : Antiflood) (u t0 : Int) (ts : List Int)
    (st : FloodData) (h0 : st u = none) (hw : ∀ t ∈ ts, t - t0 < a.time_limit) :
    runCalls a u (t0 :: ts) st =
      false :: (List.range ts.length).map (fun (j : Nat) => decide (1 + (j : Int) + 1 ≥ a.count_limit)) := by
  have hstep := is_flooding_absent a t0 st u h0
  simp only [runCalls, hstep]
  rw [runCalls_window a u t0 ts (init_user t0 st u) 1 (updateFlood_same st u ⟨t0, 1⟩) hw]

/-- C1: RateWindow check contract.  For every identity `u`: if the state
has no record for `u`, a record with `counter = 1`, `begin = now` is
created and the call returns `false`; else if `now - begin ≥ time_limit`,
the record is reset to `counter = 1`, `begin = now` and the call returns
`false`; else the counter is incremented and the call returns
`counter ≥ count_limit`.  In particular (last conjunct) after
`time_limit` seconds of inactivity — the last activity happened at some
`tlast ≥ begin` and `now - tlast ≥ time_limit` — the next call returns
`false` regardless of the prior counter. -/
theorem antiflood_check_contract (a : Antiflood) (now : Int) (st : FloodData) (u : Int) :
    (st u = none → is_flooding a now st u = (false, init_user now st u)) ∧
    (∀ r, st u = some r → a.time_limit ≤ now - r.begin →
      is_flooding a now st u = (false, init_user now st u)) ∧
    (∀ r, st u = some r → now - r.begin < a.time_limit →
      is_flooding a now st u =
        (decide (r.counter + 1 ≥ a.count_limit), updateFlood st u ⟨r.begin, r.counter + 1⟩)) ∧
    (∀ r tlast, st u = some r → r.begin ≤ tlast → a.time_limit ≤ now - tlast →
      (is_flooding a now st u).1 = false) := by
  refine ⟨fun h => is_flooding_absent a now st u h,
    fun r h hst => is_flooding_stale a now st u r h hst,
    fun r h hfr => is_flooding_fresh a now st u r h hfr,
    fun r tlast h hle hidle => ?_⟩
  have hst : a.time_limit ≤ now - r.begin := by omega
  rw [is_flooding_stale a now st u r h hst]

/-- Witness for C1: all four branches of the contract exercised at
concrete inputs (empty state; stale record; in-window record; record idle
for longer than the timeframe). -/
theorem antiflood_check_contract_witness :
    is_flooding ⟨10, 3⟩ 5 (fun _ => none) 9 = (false, init_user 5 (fun _ => none) 9) ∧
    is_flooding ⟨10, 3⟩ 20 (fun x => if x = 9 then some ⟨5, 2⟩ else none) 9 =
      (false, init_user 20 (fun x => if x = 9 then some ⟨5, 2⟩ else none) 9) ∧
    is_flooding ⟨10, 3⟩ 6 (fun x => if x = 9 then some ⟨5, 2⟩ else none) 9 =
      (decide ((2 : Int) + 1 ≥ (3 : Int)),
        updateFlood (fun x => if x = 9 then some ⟨5, 2⟩ else none) 9 ⟨5, 3⟩) ∧
    (is_flooding ⟨10, 3⟩ 20 (fun x => if x = 9 then some ⟨5, 7⟩ else none) 9).1 = false := by
  refine ⟨(antiflood_check_contract ⟨10, 3⟩ 5 (fun _ => none) 9).1 rfl,
    (antiflood_check_contract ⟨10, 3⟩ 20 _ 9).2.1 ⟨5, 2⟩ rfl (by decide),
    (antiflood_check_contract ⟨10, 3⟩ 6 _ 9).2.2.1 ⟨5, 2⟩ rfl (by decide),
    (antiflood_check_contract ⟨10, 3⟩ 20 _ 9).2.2.2 ⟨5, 7⟩ 5 rfl (by decide) (by decide)⟩

/-- C2 counterexample: the claim fails for `count_limit = 1` (which is
strictly positive).  With `count_limit = 1` the claim predicts that the
1st call inside the window already reports flooding, but the code's first
call for an unknown identity always creates the record and returns
`False` (src/antiflood.py lines 25-28). -/
theorem flooding_threshold_counterexample :
    (0 : Int) < 1 ∧ runCalls ⟨10, 1⟩ 7 [0] (fun _ => none) = [false] := by
  exact ⟨by decide, rfl⟩

/-- C2 (amended): for `count_limit ≥ 2`, any sequence of calls for one
identity starting from no record, all within `time_limit` seconds of the
first call, returns `false` at every position before the
`count_limit`-th call and `true` at the `count_limit`-th call.  (As
stated the claim is false for `count_limit = 1`: the first call always
returns `false`.)  Positions are 0-indexed: position `i` is call
`i + 1`. -/
theorem flooding_threshold (a : Antiflood) (u : Int) (st : FloodData)
    (t0 : Int) (ts : List Int) (h0 : st u = none)
    (hw : ∀ t ∈ t0 :: ts, t - t0 < a.time_limit) :
    ∀ i, i < (t0 :: ts).length →
      (((i : Int) + 1 < a.count_limit → (runCalls a u (t0 :: ts) st)[i]? = some false) ∧
       (2 ≤ a.count_limit → (i : Int) + 1 = a.count_limit →
         (runCalls a u (t0 :: ts) st)[i]? = some true)) := by
  have hrun := runCalls_from_empty a u t0 ts st h0
    (fun t ht => hw t (List.mem_cons_of_mem _ ht))
  intro i hi
  cases i with
  | zero =>
      refine ⟨fun _ => ?_, fun h2 h1 => ?_⟩
      · rw [hrun, List.getElem?_cons_zero]
      · exfalso; omega
  | succ k =>
      have hk : k < ts.length := by
        simpa [List.length_cons, Nat.succ_lt_succ_iff] using hi
      have hgot : (runCalls a u (t0 :: ts) st)[k + 1]? =
          some (decide (1 + (k : Int) + 1 ≥ a.count_limit)) := by
        rw [hrun]
        rw [List.getElem?_cons_succ, List.getElem?_map, List.getElem?_range hk]
        rfl
      refine ⟨fun hlt => ?_, fun h2 heq => ?_⟩
      · rw [hgot]
        congr 1
        apply decide_eq_false
        omega
      · rw [hgot]
        congr 1
        apply decide_eq_true
        omega

/-- Witness for C2 (amended): `time_limit = 10`, `count_limit = 3`,
calls at times 0, 1, 2 starting with no record: results are
`false, false, true` (the spec scenario of section 8). -/
theorem flooding_threshold_witness :
    runCalls ⟨10, 3⟩ 7 [0, 1, 2] (fun _ => none) = [false, false, true] ∧
    ((runCalls ⟨10, 3⟩ 7 [0, 1, 2] (fun _ => none))[1]? = some false ∧
     (runCalls ⟨10, 3⟩ 7 [0, 1, 2] (fun _ => none))[2]? = some true) := by
  refine ⟨rfl, ?_, ?_⟩
  · exact ((flooding_threshold ⟨10, 3⟩ 7 (fun _ => none) 0 [1, 2] rfl
      (by intro t ht; fin_cases ht <;> decide) 1 (by decide)).1 (by decide))
  · exact ((flooding_threshold ⟨10, 3⟩ 7 (fun _ => none) 0 [1, 2] rfl
      (by intro t ht; fin_cases ht <;> decide) 2 (by decide)).2 (by decide) (by decide))

/-! ## Blacklist scan (src/marvin.py, `MarvinBot.check_blacklist`) -/

/-- Python strings modelled as code-point sequences; `<` and `≤` on
`List Char` are code-point lexicographic, exactly Python's string
comparison. -/
abbrev PyStr := List Char

/-- The whitespace characters of Python `str.split()` with no argument
(the ASCII ones: space, tab, newline, carriage return, vertical tab,
form feed). -/
def pyIsSpace (c : Char) : Bool :=
  c = ' ' || c = '\t' || c = '\n' || c = '\r' || c = '\x0b' || c = '\x0c'

/-- Accumulator version of Python `str.split()`: `acc` holds the current
token reversed. -/
def pySplitAux : List Char → List Char → List PyStr
  | [], acc => if acc.isEmpty then [] else [acc.reverse]
  | c :: cs, acc =>
    if pyIsSpace c then
      (if acc.isEmpty then [] else [acc.reverse]) ++ pySplitAux cs []
    else
      pySplitAux cs (c :: acc)

/-- Python `text.split()` (src/marvin.py line 156): split on whitespace
runs, discarding empty tokens. -/
def pySplit (text : PyStr) : List PyStr := pySplitAux text []

/-- The two-pointer merge loop of `check_blacklist` (src/marvin.py
lines 159-169): `index_t` walks the sorted words, `index_b` the sorted
blacklist; on equality return the word, if the word is greater advance
the blacklist pointer, else advance the word pointer; fall out with no
match when either list is exhausted. -/
def scanMerge : List PyStr → List PyStr → Option PyStr
  | [], _ => none
  | _ :: _, [] => none
  | t :: ts, b :: bs =>
    if t = b then some t
    else if b < t then scanMerge (t :: ts) bs
    else scanMerge ts (b :: bs)
termination_by ws bs => ws.length + bs.length

/-- `MarvinBot.check_blacklist(self, text)` (src/marvin.py lines 155-169):
`words = text.split(); words.sort()` then the merge walk against
`self.word_blacklist`.  Python's `list.sort()` is modelled by
`List.insertionSort (· ≤ ·)` (any ascending stable sort of strings
produces the same list, since the order is antisymmetric). -/
def check_blacklist (word_blacklist : List PyStr) (text : PyStr) : Option PyStr :=
  scanMerge (List.insertionSort (fun a b => a ≤ b) (pySplit text)) word_blacklist

/-! ### Helper lemmas for the merge scan -/

theorem scanMerge_some_mem :
    ∀ (ws bs : List PyStr) (x : PyStr), scanMerge ws bs = some x → x ∈ ws ∧ x ∈ bs := by
  intro ws bs
  induction ws, bs using scanMerge.induct with
  | case1 bs => intro x h; simp [scanMerge] at h
  | case2 t ts => intro x h; simp [scanMerge] at h
  | case3 ts b bs =>
      intro x h
      simp only [scanMerge, if_pos rfl] at h
      cases h
      exact ⟨List.mem_cons_self _ _, List.mem_cons_self _ _⟩
  | case4 t ts b bs hne hlt ih =>
      intro x h
      rw [scanMerge, if_neg hne, if_pos hlt] at h
      have hx := ih x h
      exact ⟨hx.1, List.mem_cons_of_mem _ hx.2⟩
  | case5 t ts b bs hne hnlt ih =>
      intro x h
      rw [scanMerge, if_neg hne, if_neg hnlt] at h
      have hx := ih x h
      exact ⟨List.mem_cons_of_mem _ hx.1, hx.2⟩

theorem scanMerge_none_disjoint :
    ∀ (ws bs : List PyStr), List.Sorted (fun a b => a ≤ b) ws →
      List.Sorted (fun a b => a ≤ b) bs → scanMerge ws bs = none →
      ∀ x, x ∈ ws → x ∉ bs := by
  intro ws bs
  induction ws, bs using scanMerge.induct with
  | case1 bs => intro _ _ _ x hx; simp at hx
  | case2 t ts => intro _ _ _ x _ hx; simp at hx
  | case3 ts b bs =>
      intro _ _ h
      simp [scanMerge] at h
  | case4 t ts b bs hne hlt ih =>
      intro hws hbs h x hx
      rw [scanMerge, if_neg hne, if_pos hlt] at h
      have hbs' := (List.sorted_cons.mp hbs).2
      have hnotin := ih hws hbs' h x hx
      intro hmem
      rcases List.mem_cons.mp hmem with hxb | hxbs
      · subst hxb
        have htx : t ≤ x := by
          rcases List.mem_cons.mp hx with h1 | h2
          · exact le_of_eq h1.symm
          · exact (List.sorted_cons.mp hws).1 x h2
        exact absurd (lt_of_lt_of_le hlt htx) (lt_irrefl x)
      · exact hnotin hxbs
  | case5 t ts b bs hne hnlt ih =>
      intro hws hbs h x hx
      rw [scanMerge, if_neg hne, if_neg hnlt] at h
      have hws' := (List.sorted_cons.mp hws).2
      have htb : t < b := lt_of_le_of_ne (not_lt.mp hnlt) hne
      rcases List.mem_cons.mp hx with hxt | hxts
      · subst hxt
        intro hmem
        have hbx : b ≤ x := by
          rcases List.mem_cons.mp hmem with h1 | h2
          · exact le_of_eq h1.symm
          · exact (List.sorted_cons.mp hbs).1 x h2
        exact absurd (lt_of_lt_of_le htb hbx) (lt_irrefl x)
      · exact ih hws' hbs h x hxts

theorem scanMerge_some_min :
    ∀ (ws bs : List PyStr), List.Sorted (fun a b => a ≤ b) ws →
      List.Sorted (fun a b => a ≤ b) bs → ∀ x, scanMerge ws bs = some x →
      ∀ y, y ∈ ws → y ∈ bs → x ≤ y := by
  intro ws bs
  induction ws, bs using scanMerge.induct with
  | case1 bs => intro _ _ x h; simp [scanMerge] at h
  | case2 t ts => intro _ _ x h; simp [scanMerge] at h
  | case3 ts b bs =>
      intro hws _ x h y hyw _
      simp only [scanMerge, if_pos rfl] at h
      cases h
      rcases List.mem_cons.mp hyw with h1 | h2
      · exact le_of_eq h1.symm
      · exact (List.sorted_cons.mp hws).1 y h2
  | case4 t ts b bs hne hlt ih =>
      intro hws hbs x h y hyw hyb
      rw [scanMerge, if_neg hne, if_pos hlt] at h
      have hbs' := (List.sorted_cons.mp hbs).2
      rcases List.mem_cons.mp hyb with h1 | h2
      · subst h1
        have hty : t ≤ y := by
          rcases List.mem_cons.mp hyw with h3 | h4
          · exact le_of_eq h3.symm
          · exact (List.sorted_cons.mp hws).1 y h4
        exact absurd (lt_of_lt_of_le hlt hty) (lt_irrefl y)
      · exact ih hws hbs' x h y hyw h2
  | case5 t ts b bs hne hnlt ih =>
      intro hws hbs x h y hyw hyb
      rw [scanMerge, if_neg hne, if_neg hnlt] at h
      have hws' := (List.sorted_cons.mp hws).2
      have htb : t < b := lt_of_le_of_ne (not_lt.mp hnlt) hne
      rcases List.mem_cons.mp hyw with h1 | h2
      · subst h1
        have hby : b ≤ y := by
          rcases List.mem_cons.mp hyb with h3 | h4
          · exact le_of_eq h3.symm
          · exact (List.sorted_cons.mp hbs).1 y h4
        exact absurd (lt_of_lt_of_le htb hby) (lt_irrefl y)
      · exact ih hws' hbs x h y h2 hyb

/-- C3: blacklist scan correctness.  For every text and every sorted
blacklist, `check_blacklist` returns a token iff the set of
whitespace-delimited tokens of the text and the set of blacklist entries
intersect, and in that case the returned token is a common token that is
lexicographically least among all common tokens; otherwise it returns
`none`. -/
theorem blacklist_scan_correct (bl : List PyStr) (text : PyStr)
    (hbl : List.Sorted (fun a b => a ≤ b) bl) :
    ((check_blacklist bl text).isSome ↔ ∃ w, w ∈ pySplit text ∧ w ∈ bl) ∧
    (∀ w, check_blacklist bl text = some w →
      w ∈ pySplit text ∧ w ∈ bl ∧ ∀ v, v ∈ pySplit text → v ∈ bl → w ≤ v) := by
  have hsort : List.Sorted (fun a b => a ≤ b)
      (List.insertionSort (fun a b => a ≤ b) (pySplit text)) :=
    List.sorted_insertionSort _ _
  have hperm : ∀ x : PyStr,
      x ∈ List.insertionSort (fun a b => a ≤ b) (pySplit text) ↔ x ∈ pySplit text :=
    fun x => (List.perm_insertionSort _ _).mem_iff
  constructor
  · constructor
    · intro hs
      rcases Option.isSome_iff_exists.mp hs with ⟨w, hw⟩
      have hm := scanMerge_some_mem _ _ w hw
      exact ⟨w, (hperm w).mp hm.1, hm.2⟩
    · intro hex
      rcases hex with ⟨w, hw1, hw2⟩
      cases hchk : check_blacklist bl text with
      | some v => simp
      | none =>
          exfalso
          exact scanMerge_none_disjoint _ _ hsort hbl hchk w ((hperm w).mpr hw1) hw2
  · intro w hw
    have hm := scanMerge_some_mem _ _ w hw
    refine ⟨(hperm w).mp hm.1, hm.2, fun v hv1 hv2 => ?_⟩
    exact scanMerge_some_min _ _ hsort hbl w hw v ((hperm v).mpr hv1) hv2

/-- Witness for C3, the spec scenario of section 8: blacklist
`[idiota, spam]`, text `Questo e spam puro` — the scan finds `spam`,
which is a common token and least among common tokens. -/
theorem blacklist_scan_correct_witness :
    check_blacklist ["idiota".data, "spam".data] "Questo e spam puro".data = some "spam".data ∧
    "spam".data ∈ pySplit "Questo e spam puro".data ∧
    "spam".data ∈ ["idiota".data, "spam".data] ∧
    (∀ v, v ∈ pySplit "Questo e spam puro".data → v ∈ ["idiota".data, "spam".data] →
      "spam".data ≤ v) := by
  have hs : List.insertionSort (fun a b => a ≤ b) (pySplit "Questo e spam puro".data) =
      ["Questo".data, "e".data, "puro".data, "spam".data] := by decide
  have hchk : check_blacklist ["idiota".data, "spam".data] "Questo e spam puro".data =
      some "spam".data := by
    simp only [check_blacklist, hs]
    simp [scanMerge]
    decide
  have h := (blacklist_scan_correct ["idiota".data, "spam".data]
    "Questo e spam puro".data (by decide)).2 "spam".data hchk
  exact ⟨hchk, h.1, h.2.1, h.2.2⟩

/-! ## Permission-gated deletion (src/marvin.py, lines 171-209) -/

/-- An external effect of `delete_message_if_admin`: an immediate
`bot.delete_message` call, or the spawn of a `delete_message_with_delay`
thread with the given delay. -/
inductive DelAction where
  | deleteNow (gid msg : Int)
  | spawnDelayed (gid msg delay : Int)
deriving DecidableEq

/-- Result of one `delete_message_if_admin` call: the updated
`self.tg_groups` cache (only the `is_admin` attribute of a stored group
object is ever read back, so the cache is modelled as the map from group
id to that boolean), whether the external permission probe
(`is_sender_admin`, i.e. a `get_chat_member` query for the bot's own
rights) was invoked during the call, and the actions performed. -/
structure DelResult where
  cache : Int → Option Bool
  probed : Bool
  actions : List DelAction

/-- `MarvinBot.delete_message_if_admin(self, tg_group, message_id,
seconds_delay=0)` (src/marvin.py lines 181-209).  On a cache miss the
group is stored, the probe runs once and its answer is memoized in
`tg_groups[gid].is_admin`; on a hit the stored boolean is used and the
probe is not consulted.  On both paths the action — a delayed thread
spawn when `seconds_delay > 0`, an immediate delete otherwise — is
performed only when `is_admin` is true, and nothing at all happens (and
no error is raised) when it is false. -/
def delete_message_if_admin (probe : Int → Bool) (cache : Int → Option Bool)
    (gid msg seconds_delay : Int) : DelResult :=
  match cache gid with
  | none =>
    let is_admin := probe gid
    let cache' := fun x => if x = gid then some is_admin else cache x
    if is_admin then
      if seconds_delay > 0 then ⟨cache', true, [.spawnDelayed gid msg seconds_delay]⟩
      else ⟨cache', true, [.deleteNow gid msg]⟩
    else ⟨cache', true, []⟩
  | some is_admin =>
    if is_admin then
      if seconds_delay > 0 then ⟨cache, false, [.spawnDelayed gid msg seconds_delay]⟩
      else ⟨cache, false, [.deleteNow gid msg]⟩
    else ⟨cache, false, []⟩

/-- `MarvinBot.delete_message_with_delay(self, tg_group_id, message_id,
seconds_delay)` (src/marvin.py lines 171-179), the body of the spawned
thread: `sleep(seconds_delay)` then one unconditional
`bot.delete_message` call, with no privilege check.  Modelled as the
timed event list the thread produces when started at clock time `now`. -/
def delete_message_with_delay (now gid msg seconds_delay : Int) : List (Int × DelAction) :=
  [(now + seconds_delay, DelAction.deleteNow gid msg)]

/-- One invocation of `delete_message_if_admin` in the sequential main
path. -/
structure TgCall where
  gid : Int
  msg : Int
  delay : Int

/-- Runs a sequence of `delete_message_if_admin` calls, threading the
`tg_groups` cache and recording the group id of every call that invoked
the external permission probe. -/
def probeTrace (probe : Int → Bool) : List TgCall → (Int → Option Bool) → List Int
  | [], _ => []
  | c :: cs, cache =>
    (if (delete_message_if_admin probe cache c.gid c.msg c.delay).probed then [c.gid] else []) ++
      probeTrace probe cs (delete_message_if_admin probe cache c.gid c.msg c.delay).cache

/-! ### Helper lemmas for the permission cache -/

theorem dmia_hit (probe : Int → Bool) (cache : Int → Option Bool)
    (gid msg d : Int) (b : Bool) (h : cache gid = some b) :
    (delete_message_if_admin probe cache gid msg d).probed = false ∧
    (delete_message_if_admin probe cache gid msg d).cache = cache := by
  cases b <;>
    simp [delete_message_if_admin, h, apply_ite DelResult.probed, apply_ite DelResult.cache]

theorem dmia_miss (probe : Int → Bool) (cache : Int → Option Bool)
    (gid msg d : Int) (h : cache gid = none) :
    (delete_message_if_admin probe cache gid msg d).probed = true ∧
    (delete_message_if_admin probe cache gid msg d).cache gid = some (probe gid) := by
  cases hp : probe gid <;>
    simp [delete_message_if_admin, h, hp, apply_ite DelResult.probed, apply_ite DelResult.cache]

theorem dmia_miss_cache_other (probe : Int → Bool) (cache : Int → Option Bool)
    (gid msg d g : Int) (h : cache gid = none) (hne : g ≠ gid) :
    (delete_message_if_admin probe cache gid msg d).cache g = cache g := by
  cases hp : probe gid <;>
    simp [delete_message_if_admin, h, hp, hne, apply_ite DelResult.cache]

theorem probeTrace_hit_zero (probe : Int → Bool) :
    ∀ (cs : List TgCall) (cache : Int → Option Bool) (g : Int) (b : Bool),
      cache g = some b → List.count g (probeTrace probe cs cache) = 0 := by
  intro cs
  induction cs with
  | nil => intro cache g b _; simp [probeTrace]
  | cons c cs ih =>
      intro cache g b h
      rw [probeTrace, List.count_append]
      cases hc : cache c.gid with
      | some b' =>
          have hd := dmia_hit probe cache c.gid c.msg c.delay b' hc
          rw [hd.1, hd.2]
          simp [ih cache g b h]
      | none =>
          have hd := dmia_miss probe cache c.gid c.msg c.delay hc
          have hne : g ≠ c.gid := by
            intro heq; rw [heq] at h; rw [h] at hc; cases hc
          have hrest : (delete_message_if_admin probe cache c.gid c.msg c.delay).cache g = some b := by
            rw [dmia_miss_cache_other probe cache c.gid c.msg c.delay g hc hne]
            exact h
          rw [hd.1, if_pos rfl, ih _ g b hrest]
          simp [List.count_singleton']
          omega

theorem probeTrace_le_one (probe : Int → Bool) :
    ∀ (cs : List TgCall) (cache : Int → Option Bool) (g : Int),
      List.count g (probeTrace probe cs cache) ≤ 1 := by
  intro cs
  induction cs with
  | nil => intro cache g; simp [probeTrace]
  | cons c cs ih =>
      intro cache g
      rw [probeTrace, List.count_append]
      cases hc : cache c.gid with
      | some b' =>
          have hd := dmia_hit probe cache c.gid c.msg c.delay b' hc
          rw [hd.1, hd.2]
          simpa using ih cache g
      | none =>
          have hd := dmia_miss probe cache c.gid c.msg c.delay hc
          rw [hd.1, if_pos rfl]
          by_cases hg : g = c.gid
          · have hzero := probeTrace_hit_zero probe cs
              (delete_message_if_admin probe cache c.gid c.msg c.delay).cache g (probe c.gid)
              (by rw [hg]; exact hd.2)
            rw [hzero, hg]
            simp
          · have hrest := ih (delete_message_if_admin probe cache c.gid c.msg c.delay).cache g
            have hcnt : List.count g [c.gid] = 0 := by
              simp [List.count_singleton']
              omega
            omega

/-- C4: PermissionCache memoization.  Starting from the empty
`tg_groups` cache (process start), across any sequence of
`delete_message_if_admin` calls the external permission probe is invoked
at most once per distinct group id; moreover any call whose group id is
already cached is entirely independent of the probe (it uses the stored
result and never re-queries, even if the externally observable privilege
has changed). -/
theorem permission_cache_single_probe (probe probe' : Int → Bool)
    (calls : List TgCall) (g : Int) :
    List.count g (probeTrace probe calls (fun _ => none)) ≤ 1 ∧
    (∀ (cache : Int → Option Bool) (b : Bool) (gid msg d : Int), cache gid = some b →
      delete_message_if_admin probe cache gid msg d =
        delete_message_if_admin probe' cache gid msg d) := by
  refine ⟨probeTrace_le_one probe calls (fun _ => none) g, ?_⟩
  intro cache b gid msg d h
  simp [delete_message_if_admin, h]

/-- Witness for C4: two calls for the same group probe at most once, and
a call on a cached group gives the same result under two probes that
answer differently. -/
theorem permission_cache_single_probe_witness :
    List.count 1 (probeTrace (fun _ => true) [⟨1, 2, 0⟩, ⟨1, 3, 0⟩] (fun _ => none)) ≤ 1 ∧
    delete_message_if_admin (fun _ => true)
        (fun x => if x = 1 then some true else none) 1 5 0 =
      delete_message_if_admin (fun _ => false)
        (fun x => if x = 1 then some true else none) 1 5 0 := by
  refine ⟨(permission_cache_single_probe (fun _ => true) (fun _ => false) [⟨1, 2, 0⟩, ⟨1, 3, 0⟩] 1).1, ?_⟩
  exact (permission_cache_single_probe (fun _ => true) (fun _ => false) [] 1).2
    (fun x => if x = 1 then some true else none) true 1 5 0 rfl

/-- C5 counterexample: the delayed path is NOT independent of the
permission cache.  With the cache resolving group 1 to not-admin, a call
with `seconds_delay = 5 > 0` spawns no deletion thread and performs no
action at all — the delete is never invoked, contradicting the claimed
unconditional delayed execution (src/marvin.py lines 202-209: the
`Thread(...)` spawn sits under `if self.tg_groups[...].is_admin`). -/
theorem delayed_delete_counterexample :
    (5 : Int) > 0 ∧
    (delete_message_if_admin (fun _ => true)
      (fun x => if x = 1 then some false else none) 1 42 5).actions = [] := by
  exact ⟨by decide, rfl⟩

/-- C5 (amended): the delayed path is gated on the cached privilege at
scheduling time, not re-checked at execution time.  For
`seconds_delay > 0`: when the cache resolves the scope privileged (stored
`is_admin = true`, or a miss whose probe answers true) exactly one
delayed-deletion thread is spawned with that delay, and the spawned
thread performs exactly one delete, at time `now + seconds_delay`, with
no further privilege check; when the scope resolves to not privileged,
nothing is spawned. -/
theorem delayed_delete_gated (probe : Int → Bool) (cache : Int → Option Bool)
    (gid msg d now : Int) (hd : d > 0) :
    ((cache gid = some true ∨ (cache gid = none ∧ probe gid = true)) →
      (delete_message_if_admin probe cache gid msg d).actions =
        [DelAction.spawnDelayed gid msg d]) ∧
    ((cache gid = some false ∨ (cache gid = none ∧ probe gid = false)) →
      (delete_message_if_admin probe cache gid msg d).actions = []) ∧
    delete_message_with_delay now gid msg d = [(now + d, DelAction.deleteNow gid msg)] := by
  refine ⟨fun h => ?_, fun h => ?_, rfl⟩
  · rcases h with h | ⟨h1, h2⟩
    · simp [delete_message_if_admin, h, hd]
    · simp [delete_message_if_admin, h1, h2, hd]
  · rcases h with h | ⟨h1, h2⟩
    · simp [delete_message_if_admin, h]
    · simp [delete_message_if_admin, h1, h2]

/-- Witness for C5 (amended): with group 1 cached as admin, a call with
delay 5 spawns exactly one delayed deletion; with group 1 cached as
not-admin nothing is spawned; the thread body started at time 100
deletes at time 105. -/
theorem delayed_delete_gated_witness :
    (delete_message_if_admin (fun _ => false)
      (fun x => if x = 1 then some true else none) 1 42 5).actions =
        [DelAction.spawnDelayed 1 42 5] ∧
    (delete_message_if_admin (fun _ => true)
      (fun x => if x = 1 then some false else none) 1 42 5).actions = [] ∧
    delete_message_with_delay 100 1 42 5 = [(105, DelAction.deleteNow 1 42)] := by
  refine ⟨?_, ?_, ?_⟩
  · exact (delayed_delete_gated (fun _ => false)
      (fun x => if x = 1 then some true else none) 1 42 5 100 (by decide)).1 (Or.inl rfl)
  · exact (delayed_delete_gated (fun _ => true)
      (fun x => if x = 1 then some false else none) 1 42 5 100 (by decide)).2.1 (Or.inl rfl)
  · have h := (delayed_delete_gated (fun _ => true)
      (fun x => if x = 1 then some false else none) 1 42 5 100 (by decide)).2.2
    simpa using h

/-- C6: immediate-path gating.  A `delete_message_if_admin` call with
`seconds_delay = 0` on a scope the cache resolves to not-privileged
(stored `is_admin = false`, or a miss whose probe answers false) performs
no action: the delete is never invoked, and the call returns normally
with no error surfaced (the embedding is a total function; the source has
no raise on this path, src/marvin.py lines 191-209). -/
theorem immediate_delete_suppressed (probe : Int → Bool) (cache : Int → Option Bool)
    (gid msg : Int)
    (h : cache gid = some false ∨ (cache gid = none ∧ probe gid = false)) :
    (delete_message_if_admin probe cache gid msg 0).actions = [] := by
  rcases h with h | ⟨h1, h2⟩
  · simp [delete_message_if_admin, h]
  · simp [delete_message_if_admin, h1, h2]

/-- Witness for C6: both not-privileged cases at concrete inputs (cached
false; miss with probe answering false). -/
theorem immediate_delete_suppressed_witness :
    (delete_message_if_admin (fun _ => true)
      (fun x => if x = 1 then some false else none) 1 42 0).actions = [] ∧
    (delete_message_if_admin (fun _ => false) (fun _ => none) 1 42 0).actions = [] := by
  refine ⟨?_, ?_⟩
  · exact immediate_delete_suppressed (fun _ => true)
      (fun x => if x = 1 then some false else none) 1 42 (Or.inl rfl)
  · exact immediate_delete_suppressed (fun _ => false) (fun _ => none) 1 42 (Or.inr ⟨rfl, rfl⟩)

/-! ## Message dispatch (src/marvin.py, `MarvinBot.message_handler`, lines 921-951) -/

/-- Python `text.split(' ', 1)[0]`: the characters before the first space
character (the whole string when it has none). -/
def upToSpace : List Char → List Char
  | [] => []
  | c :: cs => if c = ' ' then [] else c :: upToSpace cs

/-- Python `str.strip()`: drop leading and trailing whitespace. -/
def pyStrip (s : List Char) : List Char :=
  ((s.dropWhile (fun c => pyIsSpace c)).reverse.dropWhile (fun c => pyIsSpace c)).reverse

/-- Python `text.startswith(p)`. -/
def pyStartsWith (p t : List Char) : Bool := List.isPrefixOf p t

/-- Python `needle in hay` on strings: substring containment. -/
def pyContains (needle : List Char) : List Char → Bool
  | [] => needle.isEmpty
  | c :: cs => List.isPrefixOf needle (c :: cs) || pyContains needle cs

/-- Dispatch-level events of `MarvinBot.message_handler`: which
sub-handler runs, or the deletion scheduled for an unrecognized command
(`delete_message_if_admin(update.message.chat, update.message.message_id, 5)`,
src/marvin.py line 948).  There is no constructor for a rate-limiter
check: `marvin.py` contains no reference to the `Antiflood` class, so no
code path of the handler can invoke `is_flooding`. -/
inductive HEvent where
  | callStart
  | callGetId
  | callComment
  | callPostlink
  | callPosttext
  | callDelrule
  | callDelcomment
  | callAppost
  | callAdmin
  | deleteIfAdminDelay (delay : Int)
deriving DecidableEq

/-- `MarvinBot.message_handler(self, update, context)` (src/marvin.py
lines 921-951) at dispatch granularity.  `none` stands for the early
return when `update`, `update.message` or `update.message.text` is
`None`; otherwise the first word of the text (`text.split(' ', 1)[0]
.strip()`) selects a sub-handler, an unrecognized slash command is
scheduled for deletion with a fixed 5-second delay and nothing else, and
a non-command text containing `@admin` calls the admin handler. -/
def message_handler (text : Option PyStr) : List HEvent :=
  match text with
  | none => []
  | some t =>
    if pyStartsWith "/".data t then
      let command := pyStrip (upToSpace t)
      if command = "/start".data then [HEvent.callStart]
      else if command = "/id".data then [HEvent.callGetId]
      else if command = "/comment".data then [HEvent.callComment]
      else if command = "/postlink".data then [HEvent.callPostlink]
      else if command = "/posttext".data then [HEvent.callPosttext]
      else if command = "/delrule".data then [HEvent.callDelrule]
      else if command = "/delcomment".data then [HEvent.callDelcomment]
      else if command = "/appost".data then [HEvent.callAppost]
      else if command = "/admin".data then [HEvent.callAdmin]
      else [HEvent.deleteIfAdminDelay 5]
    else if pyContains "@admin".data t then [HEvent.callAdmin]
    else []

/-- C7 counterexample: the message handler never consults the rate
limiter.  At a moment when identity 7 is flooding by the `Antiflood`
definition (record `begin = 0`, `counter = 3`, limits `10, 3`, clock 1:
`is_flooding` answers `true`), the handler still dispatches the message
`/id` straight to the `get_id` sub-handler — which sends the chat id
message — and schedules no deletion, contradicting the claimed
rate-check-then-reject step. -/
theorem rate_gate_counterexample :
    (is_flooding ⟨10, 3⟩ 1 (fun x => if x = 7 then some ⟨0, 3⟩ else none) 7).1 = true ∧
    message_handler (some "/id".data) = [HEvent.callGetId] := by
  exact ⟨by decide, by decide⟩

/-- C7 (amended): `message_handler` does not invoke the rate limiter at
all (`marvin.py` never references `Antiflood`); the only throttling-like
behaviour is that a slash message whose first word matches no known
command is scheduled for deletion with the fixed 5-second grace delay,
with no explanatory message sent. -/
theorem unrecognized_command_grace_delay (t : PyStr)
    (hslash : pyStartsWith "/".data t = true)
    (hcmd : pyStrip (upToSpace t) ∉
      ["/start".data, "/id".data, "/comment".data, "/postlink".data, "/posttext".data,
       "/delrule".data, "/delcomment".data, "/appost".data, "/admin".data]) :
    message_handler (some t) = [HEvent.deleteIfAdminDelay 5] := by
  simp only [List.mem_cons, List.mem_singleton, not_or] at hcmd
  obtain ⟨h1, h2, h3, h4, h5, h6, h7, h8, h9⟩ := hcmd
  simp [message_handler, hslash, h1, h2, h3, h4, h5, h6, h7, h8, h9]

/-- Witness for C7 (amended): the unknown command `/foo bar` is deleted
after the 5-second grace delay and nothing is sent. -/
theorem unrecognized_command_grace_delay_witness :
    pyStartsWith "/".data "/foo bar".data = true ∧
    message_handler (some "/foo bar".data) = [HEvent.deleteIfAdminDelay 5] := by
  refine ⟨by decide, ?_⟩
  exact unrecognized_command_grace_delay "/foo bar".data (by decide) (by decide)

/-! ## Comment moderation (src/marvin.py, `MarvinBot.comment`, lines 347-362) -/

/-- Events of the blacklist branch of `MarvinBot.comment`. -/
inductive CEvent where
  | deleteIfAdminCall (delay : Int)
  | sendReply (text : PyStr)
  | submissionReply (text : PyStr)
  | groupConfirmMessage
deriving DecidableEq

/-- The explanatory reply of the blacklist rejection (src/marvin.py
lines 359-362): the fixed Italian sentence followed by the offending
token. -/
def bannedWordReplyText (w : PyStr) : PyStr :=
  "Il tuo commento contiene la seguente parola bandita: ".data ++ w

/-- The tail of `MarvinBot.comment` from the blacklist check on
(src/marvin.py lines 347-362): `good_check = self.check_blacklist
(comment_text)`; when it is `None` the comment is submitted externally
(`submission.reply`) and a confirmation is sent to the group; otherwise
the command message is deleted via `delete_message_if_admin` with the
default `seconds_delay = 0` and the explanatory reply naming the banned
word is sent. -/
def comment_moderation (word_blacklist : List PyStr) (comment_text : PyStr) : List CEvent :=
  match check_blacklist word_blacklist comment_text with
  | none => [CEvent.submissionReply comment_text, CEvent.groupConfirmMessage]
  | some w => [CEvent.deleteIfAdminCall 0, CEvent.sendReply (bannedWordReplyText w)]

/-- C8: blacklist gating of the comment path.  When the scan reports a
token, the comment path schedules an immediate deletion (delay 0) of the
offending message and sends the explanatory message naming the token;
when the scan reports no match, the comment proceeds to the external
action (the Reddit reply). -/
theorem comment_blacklist_gate (bl : List PyStr) (text : PyStr) :
    (∀ w, check_blacklist bl text = some w →
      comment_moderation bl text =
        [CEvent.deleteIfAdminCall 0, CEvent.sendReply (bannedWordReplyText w)]) ∧
    (check_blacklist bl text = none →
      comment_moderation bl text =
        [CEvent.submissionReply text, CEvent.groupConfirmMessage]) := by
  refine ⟨fun w hw => ?_, fun hn => ?_⟩
  · simp [comment_moderation, hw]
  · simp [comment_moderation, hn]

/-- Witness for C8: with blacklist `[idiota, spam]`, the text `spam` is
rejected with an immediate deletion and the reply naming `spam`, while
the text `ciao mondo` proceeds to the external action. -/
theorem comment_blacklist_gate_witness :
    comment_moderation ["idiota".data, "spam".data] "spam".data =
      [CEvent.deleteIfAdminCall 0, CEvent.sendReply (bannedWordReplyText "spam".data)] ∧
    comment_moderation ["idiota".data, "spam".data] "ciao mondo".data =
      [CEvent.submissionReply "ciao mondo".data, CEvent.groupConfirmMessage] := by
  have hs1 : List.insertionSort (fun a b => a ≤ b) (pySplit "spam".data) = ["spam".data] := by
    decide
  have hchk1 : check_blacklist ["idiota".data, "spam".data] "spam".data = some "spam".data := by
    simp only [check_blacklist, hs1]
    simp [scanMerge]
    decide
  have hs2 : List.insertionSort (fun a b => a ≤ b) (pySplit "ciao mondo".data) =
      ["ciao".data, "mondo".data] := by
    decide
  have hchk2 : check_blacklist ["idiota".data, "spam".data] "ciao mondo".data = none := by
    simp only [check_blacklist, hs2]
    simp [scanMerge]
  exact ⟨(comment_blacklist_gate ["idiota".data, "spam".data] "spam".data).1 "spam".data hchk1,
    (comment_blacklist_gate ["idiota".data, "spam".data] "ciao mondo".data).2 hchk2⟩

/-! ## Construction and shared state of the rate limiter -/

/-- C9 counterexample: construction with non-positive parameters
succeeds.  `Antiflood.__init__` (src/antiflood.py lines 41-43) only
assigns the attributes: there is no validation, no `raise`, and no
`ConfigurationError` anywhere in the repository, so `Antiflood(0, 0)`
returns an instance storing those values instead of failing. -/
theorem antiflood_init_counterexample :
    Antiflood.init 0 0 = (⟨0, 0⟩ : Antiflood) := rfl

/-- C9 (amended): construction never fails and performs no validation:
for every `time_limit` and `count_limit` — non-positive included — the
constructor returns the instance storing exactly those values, and
`is_flooding` runs normally with them (for instance with
`count_limit ≤ 1`, any in-window call on a record with positive counter
reports flooding).  `check` (`is_flooding`) is a total function with no
error outcome of any kind. -/
theorem antiflood_init_no_validation (tl cl : Int) :
    Antiflood.init tl cl = (⟨tl, cl⟩ : Antiflood) ∧
    (∀ now st u r, cl ≤ 1 → 1 ≤ r.counter → st u = some r → now - r.begin < tl →
      (is_flooding (Antiflood.init tl cl) now st u).1 = true) := by
  refine ⟨rfl, fun now st u r hcl hc h hfr => ?_⟩
  rw [is_flooding_fresh (Antiflood.init tl cl) now st u r h hfr]
  apply decide_eq_true
  show r.counter + 1 ≥ cl
  omega

/-- Witness for C9 (amended): `Antiflood(0, 0)` is constructed with the
fields stored verbatim, and an `Antiflood(5, 1)` instance happily
processes a call on an in-window record. -/
theorem antiflood_init_no_validation_witness :
    Antiflood.init 0 0 = (⟨0, 0⟩ : Antiflood) ∧
    (is_flooding (Antiflood.init 5 1) 6 (fun x => if x = 9 then some ⟨5, 1⟩ else none) 9).1 =
      true := by
  refine ⟨(antiflood_init_no_validation 0 0).1, ?_⟩
  exact (antiflood_init_no_validation 5 1).2 6 (fun x => if x = 9 then some ⟨5, 1⟩ else none) 9
    ⟨5, 1⟩ (by decide) (by decide) rfl (by decide)

/-- C10: `_flood_data` is a class attribute of `Antiflood`
(src/antiflood.py line 15), so the mapping is process-global and shared
by every instance; the embedding therefore threads one `FloodData` state
through all calls regardless of instance.  Consequence proved here: for
any two instances `a` and `b` (any parameters) and a state with no record
for `u`, a call through `a` at time `t` creates `u`'s record (returning
`false`), and a subsequent call through `b` inside `b`'s window observes
that record — it returns `counter + 1 ≥ b.count_limit` with the counter
`a` wrote — whereas the same `b` call on the unshared pre-state would
have returned `false`. -/
theorem flood_data_shared (a b : Antiflood) (st : FloodData) (u t t' : Int)
    (h : st u = none) (hw : t' - t < b.time_limit) :
    (is_flooding a t st u).1 = false ∧
    (is_flooding a t st u).2 u = some ⟨t, 1⟩ ∧
    (is_flooding b t' (is_flooding a t st u).2 u).1 =
      decide ((1 : Int) + 1 ≥ b.count_limit) ∧
    (is_flooding b t' st u).1 = false := by
  have h1 := is_flooding_absent a t st u h
  refine ⟨by rw [h1], ?_, ?_, by rw [is_flooding_absent b t' st u h]⟩
  · rw [h1]
    exact updateFlood_same st u ⟨t, 1⟩
  · rw [h1]
    show (is_flooding b t' (init_user t st u) u).1 = _
    have h2 := is_flooding_fresh b t' (init_user t st u) u ⟨t, 1⟩
      (updateFlood_same st u ⟨t, 1⟩) hw
    rw [h2]

/-- Witness for C10: instance `(10, 3)` creates the record for user 7 at
time 0; instance `(5, 2)` — different parameters — observes it at time 1
and reports flooding (`1 + 1 ≥ 2`), while on the unshared pre-state it
would have answered `false`. -/
theorem flood_data_shared_witness :
    (is_flooding ⟨10, 3⟩ 0 (fun _ => none) 7).1 = false ∧
    (is_flooding ⟨10, 3⟩ 0 (fun _ => none) 7).2 7 = some ⟨0, 1⟩ ∧
    (is_flooding ⟨5, 2⟩ 1 (is_flooding ⟨10, 3⟩ 0 (fun _ => none) 7).2 7).1 =
      decide ((1 : Int) + 1 ≥ (2 : Int)) ∧
    (is_flooding ⟨5, 2⟩ 1 (fun _ => none) 7).1 = false :=
  flood_data_shared ⟨10, 3⟩ ⟨5, 2⟩ (fun _ => none) 7 0 1 rfl (by decide)
